import Mathlib

/-!
Verification development for the smart street light controller
(`static/pi.py`): four lights, LDR-based automatic control, manual
override via the `/control` endpoint with a 30-second timed expiry.

The Python module's global state is embedded as the structure `Sys`:
`lights_data` (per-light `status`/`lux`), `manual_override` (per-light
boolean), and the set of pending `clear_override` timer threads spawned
by `control_light` (each such thread sleeps 30 seconds from its spawn
time and then clears its light's override flag).  Actuator writes
(`GPIO.output` on a relay pin) are returned as an explicit write log.
A trace semantics (`run_trace`) interleaves sampler passes, control
requests and timer firings; a timer firing is a no-op before its wake
time, reflecting that `time.sleep(30)` suspends for at least 30 seconds.
-/

/-- The `status` field of a light: the string `"ON"` or `"OFF"`. -/
inductive Status
  | ON
  | OFF
deriving DecidableEq, Repr

/-- One entry of `lights_data`: `{"status": ..., "lux": ...}`. -/
structure Light where
  status : Status
  lux : Int
deriving DecidableEq, Repr

/-- A pending `clear_override` thread: spawned by `control_light` for light
`light`, it wakes no earlier than `fireAt` and then clears that light's
override flag unconditionally. -/
structure Timer where
  light : Fin 4
  fireAt : Nat
deriving DecidableEq, Repr

/-- An actuator write: `GPIO.output(RELAY_PINS[i], HIGH/LOW)`. -/
abbrev Write := Fin 4 × Status

/-- The module's global mutable state: `lights_data`, `manual_override`,
and the pending `clear_override` timers. -/
structure Sys where
  lights : Fin 4 → Light
  override : Fin 4 → Bool
  timers : List Timer

/-- `AUTO_MODE = True` (line 36 of `static/pi.py`). -/
def AUTO_MODE : Bool := true

/-- Initial `lights_data` and `manual_override`: all lights `OFF`,
lux `100` for lights 1-3, lux `-1` (sensor failed) for light 4,
no override, no pending timer (lines 40-53). -/
def init : Sys where
  lights := fun i => if (i : Nat) = 3 then ⟨Status.OFF, -1⟩ else ⟨Status.OFF, 100⟩
  override := fun _ => false
  timers := []

/-- `turn_light_on(light_index)`: guarded by `0 <= light_index < 4`,
writes the relay HIGH and sets `status = "ON"` (lines 71-76). -/
def turn_light_on (s : Sys) (light_index : Nat) : Sys × List Write :=
  if h : light_index < 4 then
    let i : Fin 4 := ⟨light_index, h⟩
    ({ s with lights := Function.update s.lights i ⟨Status.ON, (s.lights i).lux⟩ },
     [(i, Status.ON)])
  else (s, [])

/-- `turn_light_off(light_index)`: guarded by `0 <= light_index < 4`,
writes the relay LOW and sets `status = "OFF"` (lines 78-83). -/
def turn_light_off (s : Sys) (light_index : Nat) : Sys × List Write :=
  if h : light_index < 4 then
    let i : Fin 4 := ⟨light_index, h⟩
    ({ s with lights := Function.update s.lights i ⟨Status.OFF, (s.lights i).lux⟩ },
     [(i, Status.OFF)])
  else (s, [])

/-- `read_ldr(ldr_index)` (lines 85-110).  `raw` is the GPIO sensor input:
`some true` for HIGH (bright), `some false` for LOW (dark), `none` when the
read raises, which the `except` clause normalizes to `-1`.  Index 3
(light 4) always returns `-1` (sensor failed). -/
def read_ldr (ldr_index : Nat) (raw : Option Bool) : Int :=
  if ldr_index = 3 then -1
  else if ldr_index < 4 then
    match raw with
    | some b => if b then 100 else 0
    | none => -1
  else -1

/-- `update_sensors()` (lines 112-116): sets every light's `lux` to
`read_ldr(i)` given the raw GPIO inputs for this pass. -/
def update_sensors (s : Sys) (raw : Fin 4 → Option Bool) : Sys :=
  { s with lights := fun i => ⟨(s.lights i).status, read_ldr i (raw i)⟩ }

/-- One iteration of the `auto_control_lights` loop body for light `i`
(lines 127-148): skip if `manual_override` is set, skip light 4, else
turn on when dark (`lux == 0`) and `OFF`, turn off when bright
(`lux > 0`) and `ON`. -/
def auto_step (s : Sys) (i : Fin 4) : Sys × List Write :=
  if s.override i then (s, [])
  else if (i : Nat) = 3 then (s, [])
  else
    let lux := (s.lights i).lux
    let current_status := (s.lights i).status
    if lux = 0 ∧ current_status = Status.OFF then
      turn_light_on s i
    else if lux > 0 ∧ current_status = Status.ON then
      turn_light_off s i
    else (s, [])

/-- Accumulating fold step for the `auto_control_lights` loop. -/
def auto_fold (acc : Sys × List Write) (i : Fin 4) : Sys × List Write :=
  let r := auto_step acc.1 i
  (r.1, acc.2 ++ r.2)

/-- `auto_control_lights()` (lines 118-148): returns immediately unless
`AUTO_MODE`, else runs the loop body for lights 0..3 in order. -/
def auto_control_lights (s : Sys) : Sys × List Write :=
  if AUTO_MODE = false then (s, [])
  else (List.finRange 4).foldl auto_fold (s, [])

/-- The JSON reply of the `/control` endpoint, reduced to the fields the
spec talks about: `success`, the HTTP code, and `new_status`. -/
structure ControlResp where
  success : Bool
  code : Nat
  new_status : Option Status
deriving DecidableEq, Repr

/-- `str.lower()` on the action string, written over the character list so
it is kernel-computable (extensionally `String.toLower`). -/
def lower (s : String) : String := String.mk (s.data.map Char.toLower)

/-- `control_light()` (lines 189-244): lower-cases the action, rejects
`light_id` outside 1..4 and actions other than `"on"`/`"off"` with a 400
response and no state change; otherwise sets `manual_override`, spawns a
`clear_override` timer waking at `now + 30` (line 219: `time.sleep(30)`),
actuates via `turn_light_on`/`turn_light_off`, and replies with the
light's resulting status. -/
def control_light (s : Sys) (now : Nat) (light_id : Int) (action_raw : String) :
    Sys × List Write × ControlResp :=
  let action := lower action_raw
  if h : light_id < 1 ∨ 4 < light_id then
    (s, [], ⟨false, 400, none⟩)
  else if action = "on" ∨ action = "off" then
    let idx : Nat := (light_id - 1).toNat
    let i : Fin 4 := ⟨idx, by omega⟩
    let s1 : Sys :=
      { s with override := Function.update s.override i true,
               timers := s.timers ++ [⟨i, now + 30⟩] }
    let r := if action = "on" then turn_light_on s1 idx else turn_light_off s1 idx
    (r.1, r.2, ⟨true, 200, some ((r.1.lights i).status)⟩)
  else
    (s, [], ⟨false, 400, none⟩)

/-- `/api/data` (lines 180-187): the snapshot handed to the dashboard is
`lights_data` itself, as an ordered sequence. -/
def get_data (s : Sys) : List (Fin 4 × Light) :=
  (List.finRange 4).map (fun i => (i, s.lights i))

/-- An observable event against the shared state: a `/control` request, a
pending `clear_override` thread waking up (identified by its position in
the pending list), or one pass of the hardware loop (`update_sensors`
followed by `auto_control_lights`, lines 254-259). -/
inductive Event
  | submit (light_id : Int) (action : String)
  | timerFire (k : Nat)
  | tick (raw : Fin 4 → Option Bool)

/-- Apply one timed event.  A `clear_override` thread clears its light's
override flag unconditionally once awake (lines 218-220: `time.sleep(30)`
then `manual_override[light_key] = False`, with no staleness check); it
cannot act before its wake time, so an early `timerFire` is a no-op. -/
def step_event (now : Nat) (s : Sys) (e : Event) : Sys × List Write :=
  match e with
  | Event.submit lid a =>
      let r := control_light s now lid a
      (r.1, r.2.1)
  | Event.timerFire k =>
      match s.timers.get? k with
      | some t =>
          if t.fireAt ≤ now then
            ({ s with override := Function.update s.override t.light false,
                      timers := s.timers.eraseIdx k }, [])
          else (s, [])
      | none => (s, [])
  | Event.tick raw =>
      auto_control_lights (update_sensors s raw)

/-- Run a timed event trace, discarding the write log. -/
def run_trace (s : Sys) (tr : List (Nat × Event)) : Sys :=
  tr.foldl (fun st p => (step_event p.1 st p.2).1) s

/-- A sample state: every light `OFF` with a dark reading and an active
override; no pending timer. -/
def sampleOverridden : Sys where
  lights := fun _ => ⟨Status.OFF, 0⟩
  override := fun _ => true
  timers := []

/-- A sample state: light 1 dark and `ON` (already matching), light 2
bright and `OFF` (already matching), lights 3 and 4 with the fault
reading `-1`; no override. -/
def sampleMixed : Sys where
  lights := fun i =>
    if (i : Nat) = 0 then ⟨Status.ON, 0⟩
    else if (i : Nat) = 1 then ⟨Status.OFF, 100⟩
    else ⟨Status.OFF, -1⟩
  override := fun _ => false
  timers := []

/-- The scenario state of spec §8: prior actuation `[Off, On, On, Off]`,
no override. -/
def sampleScenario : Sys where
  lights := fun i =>
    if (i : Nat) = 1 ∨ (i : Nat) = 2 then ⟨Status.ON, 0⟩ else ⟨Status.OFF, 0⟩
  override := fun _ => false
  timers := []

/-- Raw sensor inputs producing the §8 readings `[Dark, Bright, Dark,
Faulted]` (light 4's reading is forced to `-1` by `read_ldr`). -/
def sampleRaw : Fin 4 → Option Bool :=
  fun i => if (i : Nat) = 1 then some true else some false

/-! ### Basic lemmas about the auto-control loop body -/

lemma turn_light_on_fin (s : Sys) (i : Fin 4) :
    turn_light_on s (i : Nat) =
      ({ s with lights := Function.update s.lights i ⟨Status.ON, (s.lights i).lux⟩ },
       [(i, Status.ON)]) := by
  simp [turn_light_on]

lemma turn_light_off_fin (s : Sys) (i : Fin 4) :
    turn_light_off s (i : Nat) =
      ({ s with lights := Function.update s.lights i ⟨Status.OFF, (s.lights i).lux⟩ },
       [(i, Status.OFF)]) := by
  simp [turn_light_off]

/-- Normal form of the loop body of `auto_control_lights` for one light. -/
lemma auto_step_eq (s : Sys) (i : Fin 4) :
    auto_step s i =
      if s.override i = true ∨ (i : Nat) = 3 then (s, [])
      else if (s.lights i).lux = 0 ∧ (s.lights i).status = Status.OFF then
        ({ s with lights := Function.update s.lights i ⟨Status.ON, (s.lights i).lux⟩ },
         [(i, Status.ON)])
      else if 0 < (s.lights i).lux ∧ (s.lights i).status = Status.ON then
        ({ s with lights := Function.update s.lights i ⟨Status.OFF, (s.lights i).lux⟩ },
         [(i, Status.OFF)])
      else (s, []) := by
  simp only [auto_step, turn_light_on_fin, turn_light_off_fin]
  by_cases h : s.override i = true <;> simp [h]

lemma auto_step_override_eq (s : Sys) (i : Fin 4) :
    (auto_step s i).1.override = s.override := by
  rw [auto_step_eq]
  repeat first | rfl | split

lemma auto_step_timers_eq (s : Sys) (i : Fin 4) :
    (auto_step s i).1.timers = s.timers := by
  rw [auto_step_eq]
  repeat first | rfl | split

lemma auto_step_lights_ne (s : Sys) (i j : Fin 4) (h : j ≠ i) :
    (auto_step s i).1.lights j = s.lights j := by
  rw [auto_step_eq]
  repeat first | rfl | (exact Function.update_noteq h _ _) | split

lemma auto_step_writes (s : Sys) (i : Fin 4) :
    ∀ w ∈ (auto_step s i).2, w.1 = i := by
  rw [auto_step_eq]
  intro w hw
  repeat first
  | exact absurd hw (List.not_mem_nil w)
  | (rw [List.mem_singleton] at hw; exact hw ▸ rfl)
  | split at hw

lemma auto_step_of_override (s : Sys) (i : Fin 4) (h : s.override i = true) :
    auto_step s i = (s, []) := by
  rw [auto_step_eq, if_pos (Or.inl h)]

lemma auto_step_of_faulted (s : Sys) (i : Fin 4) (h : (s.lights i).lux = -1) :
    auto_step s i = (s, []) := by
  rw [auto_step_eq]
  split
  · rfl
  · have h1 : ¬((s.lights i).lux = 0 ∧ (s.lights i).status = Status.OFF) := by
      rintro ⟨h1, -⟩; omega
    have h2 : ¬(0 < (s.lights i).lux ∧ (s.lights i).status = Status.ON) := by
      rintro ⟨h2, -⟩; omega
    rw [if_neg h1, if_neg h2]

lemma auto_step_of_matching (s : Sys) (i : Fin 4)
    (h : ((s.lights i).lux = 0 ∧ (s.lights i).status = Status.ON) ∨
         (0 < (s.lights i).lux ∧ (s.lights i).status = Status.OFF)) :
    auto_step s i = (s, []) := by
  rw [auto_step_eq]
  split
  · rfl
  · have h1 : ¬((s.lights i).lux = 0 ∧ (s.lights i).status = Status.OFF) := by
      rcases h with ⟨-, h2⟩ | ⟨h2, -⟩
      · rintro ⟨-, h3⟩; rw [h2] at h3; exact absurd h3 (by decide)
      · rintro ⟨h3, -⟩; omega
    have h2 : ¬(0 < (s.lights i).lux ∧ (s.lights i).status = Status.ON) := by
      rcases h with ⟨h2, -⟩ | ⟨-, h2⟩
      · rintro ⟨h3, -⟩; omega
      · rintro ⟨-, h3⟩; rw [h2] at h3; exact absurd h3 (by decide)
    rw [if_neg h1, if_neg h2]

/-- The loop body's effect on light `i` and its write log depend only on
light `i`'s record and override flag. -/
lemma auto_step_congr (t s : Sys) (i : Fin 4)
    (hl : t.lights i = s.lights i) (ho : t.override i = s.override i) :
    (auto_step t i).1.lights i = (auto_step s i).1.lights i ∧
    (auto_step t i).2 = (auto_step s i).2 := by
  rw [auto_step_eq, auto_step_eq, hl, ho]
  split
  · exact ⟨hl, rfl⟩
  · split
    · exact ⟨by simp, rfl⟩
    · split
      · exact ⟨by simp, rfl⟩
      · exact ⟨hl, rfl⟩

lemma auto_fold_eq (acc : Sys × List Write) (i : Fin 4) :
    auto_fold acc i = ((auto_step acc.1 i).1, acc.2 ++ (auto_step acc.1 i).2) := rfl

/-- The fold preserves the override flags and the pending timers. -/
lemma foldl_auto_override (l : List (Fin 4)) :
    ∀ s ws, ((l.foldl auto_fold (s, ws)).1.override = s.override ∧
             (l.foldl auto_fold (s, ws)).1.timers = s.timers) := by
  induction l with
  | nil => exact fun s ws => ⟨rfl, rfl⟩
  | cons j l ih =>
    intro s ws
    rw [List.foldl_cons, auto_fold_eq]
    obtain ⟨r1, r2⟩ := ih (auto_step s j).1 (ws ++ (auto_step s j).2)
    exact ⟨r1.trans (auto_step_override_eq s j), r2.trans (auto_step_timers_eq s j)⟩

/-- If, given light `i`'s observables, the loop body is a no-op on `i`,
then the whole fold leaves light `i` alone and emits no write for it. -/
lemma foldl_auto_noop (l : List (Fin 4)) (i : Fin 4) :
    ∀ s ws,
      (∀ t : Sys, t.lights i = s.lights i → t.override i = s.override i →
        auto_step t i = (t, [])) →
      ((l.foldl auto_fold (s, ws)).1.lights i = s.lights i ∧
       (l.foldl auto_fold (s, ws)).1.override i = s.override i ∧
       ∀ w ∈ (l.foldl auto_fold (s, ws)).2, w ∈ ws ∨ w.1 ≠ i) := by
  induction l with
  | nil => exact fun s ws _ => ⟨rfl, rfl, fun w hw => Or.inl hw⟩
  | cons j l ih =>
    intro s ws h
    rw [List.foldl_cons, auto_fold_eq]
    by_cases hj : j = i
    · subst hj
      rw [h s rfl rfl]
      simpa using ih s ws h
    · have hl : (auto_step s j).1.lights i = s.lights i :=
        auto_step_lights_ne s j i (Ne.symm hj)
      have ho : (auto_step s j).1.override i = s.override i :=
        congrFun (auto_step_override_eq s j) i
      obtain ⟨r1, r2, r3⟩ := ih (auto_step s j).1 (ws ++ (auto_step s j).2)
        (fun t htl hto => h t (htl.trans hl) (hto.trans ho))
      refine ⟨r1.trans hl, r2.trans ho, fun w hw => ?_⟩
      rcases r3 w hw with hw' | hne
      · rcases List.mem_append.mp hw' with h1 | h2
        · exact Or.inl h1
        · exact Or.inr (by rw [auto_step_writes s j w h2]; exact hj)
      · exact Or.inr hne

/-- A fold over indices not containing `i` leaves light `i`'s record and
override flag unchanged. -/
lemma foldl_auto_not_mem (l : List (Fin 4)) (i : Fin 4) :
    ∀ s ws, i ∉ l →
      ((l.foldl auto_fold (s, ws)).1.lights i = s.lights i ∧
       (l.foldl auto_fold (s, ws)).1.override i = s.override i) := by
  induction l with
  | nil => exact fun s ws _ => ⟨rfl, rfl⟩
  | cons j l ih =>
    intro s ws hi
    have hj : i ≠ j := fun h => hi (h ▸ List.mem_cons_self j l)
    rw [List.foldl_cons, auto_fold_eq]
    obtain ⟨r1, r2⟩ := ih (auto_step s j).1 (ws ++ (auto_step s j).2)
      (fun h => hi (List.mem_cons_of_mem j h))
    exact ⟨r1.trans (auto_step_lights_ne s j i hj),
           r2.trans (congrFun (auto_step_override_eq s j) i)⟩

/-- Pointwise characterization: over a duplicate-free index list containing
`i`, the fold's effect on light `i` is exactly one loop-body application. -/
lemma foldl_auto_mem_nodup (l : List (Fin 4)) (i : Fin 4) :
    ∀ s ws, l.Nodup → i ∈ l →
      (l.foldl auto_fold (s, ws)).1.lights i = (auto_step s i).1.lights i := by
  induction l with
  | nil => intro s ws _ h; cases h
  | cons j l ih =>
    intro s ws hnd hmem
    rw [List.foldl_cons, auto_fold_eq]
    by_cases hj : i = j
    · subst hj
      exact (foldl_auto_not_mem l i (auto_step s i).1 (ws ++ (auto_step s i).2)
        (List.nodup_cons.mp hnd).1).1
    · have hmem' : i ∈ l := (List.mem_cons.mp hmem).resolve_left hj
      have hl1 : (auto_step s j).1.lights i = s.lights i := auto_step_lights_ne s j i hj
      have ho1 : (auto_step s j).1.override i = s.override i :=
        congrFun (auto_step_override_eq s j) i
      rw [ih (auto_step s j).1 (ws ++ (auto_step s j).2) (List.nodup_cons.mp hnd).2 hmem']
      exact (auto_step_congr (auto_step s j).1 s i hl1 ho1).1

lemma auto_control_lights_eq (s : Sys) :
    auto_control_lights s = (List.finRange 4).foldl auto_fold (s, []) := by
  simp [auto_control_lights, AUTO_MODE]

lemma auto_control_pointwise (s : Sys) (i : Fin 4) :
    (auto_control_lights s).1.lights i = (auto_step s i).1.lights i := by
  rw [auto_control_lights_eq]
  exact foldl_auto_mem_nodup (List.finRange 4) i s []
    (List.nodup_finRange 4) (List.mem_finRange i)

lemma auto_control_override (s : Sys) :
    (auto_control_lights s).1.override = s.override := by
  rw [auto_control_lights_eq]
  exact (foldl_auto_override (List.finRange 4) s []).1

lemma auto_control_timers (s : Sys) :
    (auto_control_lights s).1.timers = s.timers := by
  rw [auto_control_lights_eq]
  exact (foldl_auto_override (List.finRange 4) s []).2

/-! ### Lemmas about sensors, the control endpoint and traces -/

lemma update_sensors_status (s : Sys) (raw : Fin 4 → Option Bool) (i : Fin 4) :
    ((update_sensors s raw).lights i).status = (s.lights i).status := rfl

lemma update_sensors_lux (s : Sys) (raw : Fin 4 → Option Bool) (i : Fin 4) :
    ((update_sensors s raw).lights i).lux = read_ldr i (raw i) := rfl

lemma update_sensors_override (s : Sys) (raw : Fin 4 → Option Bool) :
    (update_sensors s raw).override = s.override := rfl

lemma update_sensors_timers (s : Sys) (raw : Fin 4 → Option Bool) :
    (update_sensors s raw).timers = s.timers := rfl

lemma auto_step_lux (s : Sys) (i j : Fin 4) :
    ((auto_step s i).1.lights j).lux = (s.lights j).lux := by
  rw [auto_step_eq]
  split
  · rfl
  · split
    · by_cases hj : j = i
      · subst hj; simp
      · simp [Function.update_noteq hj]
    · split
      · by_cases hj : j = i
        · subst hj; simp
        · simp [Function.update_noteq hj]
      · rfl

lemma auto_control_lux (s : Sys) (j : Fin 4) :
    ((auto_control_lights s).1.lights j).lux = (s.lights j).lux := by
  rw [auto_control_pointwise]
  exact auto_step_lux s j j

lemma turn_light_on_eq (s : Sys) (n : Nat) (hn : n < 4) :
    turn_light_on s n =
      ({ s with lights :=
           Function.update s.lights ⟨n, hn⟩ ⟨Status.ON, (s.lights ⟨n, hn⟩).lux⟩ },
       [(⟨n, hn⟩, Status.ON)]) := by
  unfold turn_light_on
  rw [dif_pos hn]

lemma turn_light_off_eq (s : Sys) (n : Nat) (hn : n < 4) :
    turn_light_off s n =
      ({ s with lights :=
           Function.update s.lights ⟨n, hn⟩ ⟨Status.OFF, (s.lights ⟨n, hn⟩).lux⟩ },
       [(⟨n, hn⟩, Status.OFF)]) := by
  unfold turn_light_off
  rw [dif_pos hn]

/-- Normal form of a valid `/control` request: actuation forced, override
set, one new `clear_override` timer waking at `now + 30` appended, one
actuator write, success response carrying the resulting status. -/
lemma control_light_valid (s : Sys) (now : Nat) (lid : Int) (a : String)
    (h1 : 1 ≤ lid) (h2 : lid ≤ 4)
    (ha : lower a = "on" ∨ lower a = "off") :
    control_light s now lid a =
      ({ lights := Function.update s.lights ⟨(lid - 1).toNat, by omega⟩
            ⟨if lower a = "on" then Status.ON else Status.OFF,
             (s.lights ⟨(lid - 1).toNat, by omega⟩).lux⟩,
         override := Function.update s.override ⟨(lid - 1).toNat, by omega⟩ true,
         timers := s.timers ++ [⟨⟨(lid - 1).toNat, by omega⟩, now + 30⟩] },
       [(⟨(lid - 1).toNat, by omega⟩, if lower a = "on" then Status.ON else Status.OFF)],
       ⟨true, 200, some (if lower a = "on" then Status.ON else Status.OFF)⟩) := by
  have hno : ¬(lid < 1 ∨ 4 < lid) := by omega
  have hlt : (lid - 1).toNat < 4 := by omega
  rcases ha with ha | ha
  · simp only [control_light, ha, dif_neg hno]
    rw [turn_light_on_eq _ _ hlt]
    simp
  · simp only [control_light, ha, dif_neg hno]
    rw [if_neg (by decide : ¬("off" : String) = "on"), turn_light_off_eq _ _ hlt]
    simp

/-- A `/control` request never changes any light's stored lux reading. -/
lemma control_light_lux (s : Sys) (now : Nat) (lid : Int) (a : String) (j : Fin 4) :
    ((control_light s now lid a).1.lights j).lux = (s.lights j).lux := by
  by_cases hv : lid < 1 ∨ 4 < lid
  · unfold control_light
    rw [dif_pos hv]
  · by_cases ha : lower a = "on" ∨ lower a = "off"
    · rw [control_light_valid s now lid a (by omega) (by omega) ha]
      by_cases hj : j = ⟨(lid - 1).toNat, by omega⟩
      · subst hj; simp
      · simp [Function.update_noteq hj]
    · unfold control_light
      rw [dif_neg hv, if_neg ha]

lemma run_trace_nil (s : Sys) : run_trace s [] = s := rfl

lemma run_trace_cons (s : Sys) (p : Nat × Event) (tr : List (Nat × Event)) :
    run_trace s (p :: tr) = run_trace (step_event p.1 s p.2).1 tr := rfl

/-- A pending-timer wake-up changes no light record. -/
lemma step_timer_lights (now : Nat) (s : Sys) (k : Nat) :
    (step_event now s (Event.timerFire k)).1.lights = s.lights := by
  show ((match s.timers.get? k with
         | some t =>
             if t.fireAt ≤ now then
               ({ s with override := Function.update s.override t.light false,
                         timers := s.timers.eraseIdx k }, ([] : List Write))
             else (s, [])
         | none => (s, [])) : Sys × List Write).1.lights = s.lights
  cases s.timers.get? k with
  | none => rfl
  | some t =>
      dsimp only
      split <;> rfl

/-- A hardware-loop pass preserves the override flags and pending timers. -/
lemma step_tick_override (now : Nat) (s : Sys) (raw : Fin 4 → Option Bool) :
    (step_event now s (Event.tick raw)).1.override = s.override := by
  show (auto_control_lights (update_sensors s raw)).1.override = s.override
  rw [auto_control_override]
  rfl

lemma step_tick_timers (now : Nat) (s : Sys) (raw : Fin 4 → Option Bool) :
    (step_event now s (Event.tick raw)).1.timers = s.timers := by
  show (auto_control_lights (update_sensors s raw)).1.timers = s.timers
  rw [auto_control_timers]
  rfl

/-- A wake-up before every pending timer's wake time is a no-op. -/
lemma step_timer_early (now : Nat) (s : Sys) (k : Nat)
    (h : ∀ t ∈ s.timers, now < t.fireAt) :
    step_event now s (Event.timerFire k) = (s, []) := by
  show (match s.timers.get? k with
        | some t =>
            if t.fireAt ≤ now then
              ({ s with override := Function.update s.override t.light false,
                        timers := s.timers.eraseIdx k }, ([] : List Write))
            else (s, [])
        | none => (s, [])) = (s, [])
  cases hk : s.timers.get? k with
  | none => rfl
  | some t =>
      dsimp only
      rw [if_neg]
      have := h t (List.get?_mem hk)
      omega

/-- As long as no further `/control` request arrives and every pending
`clear_override` thread still sleeps (its wake time lies beyond every
event's time), no override flag changes and no timer is consumed. -/
lemma run_trace_no_submit_sleeping (rest : List (Nat × Event)) :
    ∀ s : Sys,
      (∀ p ∈ rest, ∀ lid a, p.2 ≠ Event.submit lid a) →
      (∀ p ∈ rest, ∀ t ∈ s.timers, p.1 < t.fireAt) →
      ((run_trace s rest).override = s.override ∧
       (run_trace s rest).timers = s.timers) := by
  induction rest with
  | nil => exact fun s _ _ => ⟨rfl, rfl⟩
  | cons p rest ih =>
    intro s hns htm
    rcases p with ⟨n, e⟩
    rw [run_trace_cons]
    cases e with
    | submit lid a =>
        exact absurd rfl (hns (n, Event.submit lid a) (List.mem_cons_self _ _) lid a)
    | timerFire k =>
        have hstep : step_event n s (Event.timerFire k) = (s, []) :=
          step_timer_early n s k
            (fun t ht => htm (n, Event.timerFire k) (List.mem_cons_self _ _) t ht)
        rw [hstep]
        exact ih s (fun p hp => hns p (List.mem_cons_of_mem _ hp))
          (fun p hp => htm p (List.mem_cons_of_mem _ hp))
    | tick raw =>
        have h1 := step_tick_override n s raw
        have h2 := step_tick_timers n s raw
        obtain ⟨r1, r2⟩ := ih (step_event n s (Event.tick raw)).1
          (fun p hp => hns p (List.mem_cons_of_mem _ hp))
          (fun p hp t ht => htm p (List.mem_cons_of_mem _ hp) t (h2 ▸ ht))
        exact ⟨r1.trans h1, r2.trans h2⟩

/-! ### Shared cores for the skipped-light claims -/

/-- If the loop body is a no-op on light `i` for every state agreeing with
`s` on light `i`'s observables, a full pass leaves the light alone and
emits no write for it. -/
lemma pass_noop_core (s : Sys) (i : Fin 4)
    (hnoop : ∀ t : Sys, t.lights i = s.lights i → t.override i = s.override i →
      auto_step t i = (t, [])) :
    (auto_control_lights s).1.lights i = s.lights i ∧
    ∀ w ∈ (auto_control_lights s).2, w.1 ≠ i := by
  obtain ⟨r1, r2, r3⟩ := foldl_auto_noop (List.finRange 4) i s [] hnoop
  rw [auto_control_lights_eq]
  exact ⟨r1, fun w hw => (r3 w hw).resolve_left (List.not_mem_nil w)⟩

lemma override_pass_core (s : Sys) (i : Fin 4) (h : s.override i = true) :
    (auto_control_lights s).1.lights i = s.lights i ∧
    ∀ w ∈ (auto_control_lights s).2, w.1 ≠ i :=
  pass_noop_core s i (fun t _ ho => auto_step_of_override t i (ho.trans h))

lemma faulted_pass_core (s : Sys) (i : Fin 4) (h : (s.lights i).lux = -1) :
    (auto_control_lights s).1.lights i = s.lights i ∧
    ∀ w ∈ (auto_control_lights s).2, w.1 ≠ i :=
  pass_noop_core s i (fun t htl _ => auto_step_of_faulted t i (by rw [htl]; exact h))

/-! ### Claim theorems -/

/-- C2: for every light whose override is Active, one auto-control pass of
the sampler (a hardware-loop tick: sensor update then
`auto_control_lights`) leaves that light's actuation state unchanged and
issues no actuator write for it; the bare policy pass likewise leaves the
whole record unchanged. -/
theorem sampler_pass_respects_override (s : Sys) (now : Nat)
    (raw : Fin 4 → Option Bool) (i : Fin 4) (h : s.override i = true) :
    ((step_event now s (Event.tick raw)).1.lights i).status = (s.lights i).status ∧
    (∀ w ∈ (step_event now s (Event.tick raw)).2, w.1 ≠ i) ∧
    (auto_control_lights s).1.lights i = s.lights i ∧
    (∀ w ∈ (auto_control_lights s).2, w.1 ≠ i) := by
  have hov' : (update_sensors s raw).override i = true := h
  obtain ⟨b1, b2⟩ := override_pass_core (update_sensors s raw) i hov'
  obtain ⟨c1, c2⟩ := override_pass_core s i h
  refine ⟨?_, ?_, c1, c2⟩
  · show ((auto_control_lights (update_sensors s raw)).1.lights i).status =
      (s.lights i).status
    rw [b1]
    rfl
  · show ∀ w ∈ (auto_control_lights (update_sensors s raw)).2, w.1 ≠ i
    exact b2

/-- C2 witness: a concrete overridden dark light stays `OFF` across a tick
and receives no write. -/
theorem sampler_pass_respects_override_witness :
    ((step_event 0 sampleOverridden (Event.tick fun _ => some false)).1.lights 0).status =
      (sampleOverridden.lights 0).status ∧
    (∀ w ∈ (step_event 0 sampleOverridden (Event.tick fun _ => some false)).2, w.1 ≠ 0) ∧
    (auto_control_lights sampleOverridden).1.lights 0 = sampleOverridden.lights 0 ∧
    (∀ w ∈ (auto_control_lights sampleOverridden).2, w.1 ≠ 0) :=
  sampler_pass_respects_override sampleOverridden 0 (fun _ => some false) 0 rfl

/-- C3: for every light whose stored reading is the fault value `-1`, one
auto-control pass leaves its record unchanged and issues no actuator write
for it (regardless of override state), so its actuation only changes via
the control endpoint. -/
theorem faulted_light_never_auto_controlled (s : Sys) (i : Fin 4)
    (h : (s.lights i).lux = -1) :
    (auto_control_lights s).1.lights i = s.lights i ∧
    ∀ w ∈ (auto_control_lights s).2, w.1 ≠ i :=
  faulted_pass_core s i h

/-- C3 witness: a pass over the mixed sample state leaves faulted light 3
(index 2) untouched and writes nothing for it. -/
theorem faulted_light_never_auto_controlled_witness :
    (auto_control_lights sampleMixed).1.lights 2 = sampleMixed.lights 2 ∧
    ∀ w ∈ (auto_control_lights sampleMixed).2, w.1 ≠ 2 :=
  faulted_light_never_auto_controlled sampleMixed 2 rfl

/-- C8: on a light whose actuation already matches its reading (dark and
`ON`, or bright and `OFF`), the auto-control loop body is a no-op, and
applying it twice in a row changes nothing and emits no actuator write
either time. -/
theorem policy_idempotent_on_matching (s : Sys) (i : Fin 4)
    (h : ((s.lights i).lux = 0 ∧ (s.lights i).status = Status.ON) ∨
         (0 < (s.lights i).lux ∧ (s.lights i).status = Status.OFF)) :
    auto_step s i = (s, []) ∧
    auto_step (auto_step s i).1 i = ((auto_step s i).1, []) := by
  have h1 := auto_step_of_matching s i h
  refine ⟨h1, ?_⟩
  rw [h1]
  exact h1

/-- C8 witness: light 1 of the mixed sample state (dark, already `ON`). -/
theorem policy_idempotent_on_matching_witness :
    auto_step sampleMixed 0 = (sampleMixed, []) ∧
    auto_step (auto_step sampleMixed 0).1 0 = ((auto_step sampleMixed 0).1, []) :=
  policy_idempotent_on_matching sampleMixed 0 (Or.inl ⟨rfl, rfl⟩)

/-- C10: the runtime fault value: `read_ldr` normalizes a raised sensor
read to `-1` even for lights 1-3, and a stored `-1` on a non-skipped light
satisfies neither the dark branch (`lux == 0`) nor the bright branch
(`lux > 0`), so the loop body is a no-op and a full pass leaves the light
unchanged with no actuator write. -/
theorem fault_value_inert_for_lights_one_to_three (s : Sys) (i : Fin 4)
    (hlt : (i : Nat) < 3) (h : (s.lights i).lux = -1) :
    read_ldr i none = -1 ∧
    auto_step s i = (s, []) ∧
    (auto_control_lights s).1.lights i = s.lights i ∧
    ∀ w ∈ (auto_control_lights s).2, w.1 ≠ i := by
  obtain ⟨r1, r2⟩ := faulted_pass_core s i h
  exact ⟨by simp [read_ldr], auto_step_of_faulted s i h, r1, r2⟩

/-- C10 witness: light 3 (index 2) of the mixed sample state carries the
fault value without being the hard-skipped index 3. -/
theorem fault_value_inert_for_lights_one_to_three_witness :
    read_ldr 2 none = -1 ∧
    auto_step sampleMixed 2 = (sampleMixed, []) ∧
    (auto_control_lights sampleMixed).1.lights 2 = sampleMixed.lights 2 ∧
    ∀ w ∈ (auto_control_lights sampleMixed).2, w.1 ≠ 2 :=
  fault_value_inert_for_lights_one_to_three sampleMixed 2 (by decide) rfl

/-! ### Light 4's reading is permanently the fault value -/

lemma step_event_faulted (now : Nat) (s : Sys) (e : Event)
    (h : (s.lights 3).lux = -1) :
    ((step_event now s e).1.lights 3).lux = -1 := by
  cases e with
  | submit lid a =>
      show ((control_light s now lid a).1.lights 3).lux = -1
      rw [control_light_lux]
      exact h
  | timerFire k =>
      rw [step_timer_lights]
      exact h
  | tick raw =>
      show ((auto_control_lights (update_sensors s raw)).1.lights 3).lux = -1
      rw [auto_control_lux]
      rfl

lemma run_trace_faulted (tr : List (Nat × Event)) :
    ∀ s : Sys, (s.lights 3).lux = -1 → ((run_trace s tr).lights 3).lux = -1 := by
  induction tr with
  | nil => exact fun s h => h
  | cons p tr ih =>
      intro s h
      rw [run_trace_cons]
      exact ih _ (step_event_faulted p.1 s p.2 h)

/-- C4: light 4's stored reading is the fault value in every reachable
state; for every other non-overridden light, one pass maps (reading,
actuation) as: dark with `OFF` yields `ON`, bright with `ON` yields `OFF`,
otherwise unchanged; and the §8 scenario (readings `[Dark, Bright, Dark,
Faulted]`, prior actuation `[Off, On, On, Off]`) yields
`[On, Off, On, Off]`. -/
theorem auto_pass_mapping :
    (∀ tr : List (Nat × Event), ((run_trace init tr).lights 3).lux = -1) ∧
    (∀ (s : Sys) (i : Fin 4),
      (s.lights 3).lux = -1 →
      s.override i = false →
      ((s.lights i).lux = 0 ∨ (s.lights i).lux = 100) →
      ((auto_control_lights s).1.lights i).status =
        (if (s.lights i).lux = 0 ∧ (s.lights i).status = Status.OFF then Status.ON
         else if 0 < (s.lights i).lux ∧ (s.lights i).status = Status.ON then Status.OFF
         else (s.lights i).status)) ∧
    (∀ i : Fin 4,
      ((step_event 0 sampleScenario (Event.tick sampleRaw)).1.lights i).status =
        (if (i : Nat) = 0 ∨ (i : Nat) = 2 then Status.ON else Status.OFF)) := by
  refine ⟨fun tr => run_trace_faulted tr init (by decide), ?_, by decide⟩
  intro s i h3 hov hr
  rw [auto_control_pointwise, auto_step_eq]
  have hi3 : ¬((i : Nat) = 3) := by
    intro hh
    have hieq : i = 3 := Fin.ext (by simpa using hh)
    rw [hieq] at hr
    rcases hr with hr | hr <;> omega
  rw [if_neg (by
    rintro (hc | hc)
    · exact Bool.noConfusion (hov.symm.trans hc)
    · exact hi3 hc)]
  by_cases hc1 : (s.lights i).lux = 0 ∧ (s.lights i).status = Status.OFF
  · rw [if_pos hc1, if_pos hc1]
    simp
  · rw [if_neg hc1, if_neg hc1]
    by_cases hc2 : 0 < (s.lights i).lux ∧ (s.lights i).status = Status.ON
    · rw [if_pos hc2, if_pos hc2]
      simp
    · rw [if_neg hc2, if_neg hc2]

/-- C4 witness: the mapping instantiated at light 1 of the mixed sample
state (dark, already `ON`: the no-op case). -/
theorem auto_pass_mapping_witness :
    ((auto_control_lights sampleMixed).1.lights 0).status =
      (if (sampleMixed.lights 0).lux = 0 ∧ (sampleMixed.lights 0).status = Status.OFF
       then Status.ON
       else if 0 < (sampleMixed.lights 0).lux ∧ (sampleMixed.lights 0).status = Status.ON
       then Status.OFF
       else (sampleMixed.lights 0).status) :=
  auto_pass_mapping.2.1 sampleMixed 0 rfl rfl (Or.inl rfl)

/-- C5: a valid `/control` request (`light_id` in 1..4, action `on`/`off`
after lower-casing) sets that light's actuation to the requested state,
sets its override flag with a pending expiry waking at `now + 30`, issues
exactly one actuator write for it, replies success with the resulting
status, and the `/api/data` snapshot taken on the new state shows the
light with its new status. -/
theorem submit_valid_effects (s : Sys) (now : Nat) (lid : Int) (a : String)
    (h1 : 1 ≤ lid) (h2 : lid ≤ 4)
    (ha : lower a = "on" ∨ lower a = "off") :
    ((control_light s now lid a).1.lights ⟨(lid - 1).toNat, by omega⟩).status =
      (if lower a = "on" then Status.ON else Status.OFF) ∧
    (control_light s now lid a).1.override ⟨(lid - 1).toNat, by omega⟩ = true ∧
    (control_light s now lid a).1.timers =
      s.timers ++ [⟨⟨(lid - 1).toNat, by omega⟩, now + 30⟩] ∧
    (control_light s now lid a).2.1 =
      [(⟨(lid - 1).toNat, by omega⟩, if lower a = "on" then Status.ON else Status.OFF)] ∧
    (control_light s now lid a).2.2 =
      ⟨true, 200, some (if lower a = "on" then Status.ON else Status.OFF)⟩ ∧
    (⟨(lid - 1).toNat, by omega⟩,
      (control_light s now lid a).1.lights ⟨(lid - 1).toNat, by omega⟩)
      ∈ get_data (control_light s now lid a).1 := by
  rw [control_light_valid s now lid a h1 h2 ha]
  refine ⟨by simp, by simp, rfl, rfl, rfl, ?_⟩
  exact List.mem_map.mpr ⟨_, List.mem_finRange _, rfl⟩

/-- C5 witness: `submit(2, "On")` on the initial state. -/
theorem submit_valid_effects_witness :
    ((control_light init 0 2 "On").1.lights ⟨(2 - 1 : Int).toNat, by omega⟩).status =
      (if lower "On" = "on" then Status.ON else Status.OFF) ∧
    (control_light init 0 2 "On").1.override ⟨(2 - 1 : Int).toNat, by omega⟩ = true ∧
    (control_light init 0 2 "On").1.timers =
      init.timers ++ [⟨⟨(2 - 1 : Int).toNat, by omega⟩, 0 + 30⟩] ∧
    (control_light init 0 2 "On").2.1 =
      [(⟨(2 - 1 : Int).toNat, by omega⟩, if lower "On" = "on" then Status.ON else Status.OFF)] ∧
    (control_light init 0 2 "On").2.2 =
      ⟨true, 200, some (if lower "On" = "on" then Status.ON else Status.OFF)⟩ ∧
    (⟨(2 - 1 : Int).toNat, by omega⟩,
      (control_light init 0 2 "On").1.lights ⟨(2 - 1 : Int).toNat, by omega⟩)
      ∈ get_data (control_light init 0 2 "On").1 :=
  submit_valid_effects init 0 2 "On" (by decide) (by decide) (Or.inl (by decide))

/-- C6: an invalid `/control` request (`light_id` outside 1..4 or an action
other than `on`/`off` after lower-casing) is rejected with a 400 failure
response, the entire store is unchanged, and no actuator write occurs. -/
theorem submit_invalid_rejected (s : Sys) (now : Nat) (lid : Int) (a : String)
    (h : lid < 1 ∨ 4 < lid ∨ (lower a ≠ "on" ∧ lower a ≠ "off")) :
    control_light s now lid a = (s, [], ⟨false, 400, none⟩) := by
  simp only [control_light]
  rcases h with h | h | h
  · rw [dif_pos (Or.inl h)]
  · rw [dif_pos (Or.inr h)]
  · by_cases hv : lid < 1 ∨ 4 < lid
    · rw [dif_pos hv]
    · rw [dif_neg hv, if_neg (by rintro (h1 | h2); exacts [h.1 h1, h.2 h2])]

/-- C6 witness: `submit(7, "on")` is rejected and leaves the store as it
was. -/
theorem submit_invalid_rejected_witness :
    control_light init 0 7 "on" = (init, [], ⟨false, 400, none⟩) :=
  submit_invalid_rejected init 0 7 "on" (Or.inr (Or.inl (by decide)))

/-- Firing position 0 once the head timer's wake time has passed: that
timer's light has its override cleared and the timer is consumed. -/
lemma step_timer_head (now : Nat) (s : Sys) (t : Timer) (ts : List Timer)
    (hts : s.timers = t :: ts) (hfire : t.fireAt ≤ now) :
    step_event now s (Event.timerFire 0) =
      ({ s with override := Function.update s.override t.light false,
                timers := ts }, []) := by
  show (match s.timers.get? 0 with
        | some t =>
            if t.fireAt ≤ now then
              ({ s with override := Function.update s.override t.light false,
                        timers := s.timers.eraseIdx 0 }, ([] : List Write))
            else (s, [])
        | none => (s, [])) = _
  rw [hts]
  simp [hfire]

/-- After an override expires, a sampler pass with a bright raw input
turns a manually-switched-on non-faulted light back off. -/
lemma tick_flips_bright_on (s : Sys) (i : Fin 4) (now : Nat)
    (hov : s.override i = false) (hi3 : ¬((i : Nat) = 3))
    (hst : (s.lights i).status = Status.ON) :
    ((step_event now s (Event.tick (fun _ => some true))).1.lights i).status =
      Status.OFF := by
  show ((auto_control_lights (update_sensors s (fun _ => some true))).1.lights i).status =
    Status.OFF
  rw [auto_control_pointwise, auto_step_eq]
  have hov' : (update_sensors s (fun _ => some true)).override i = false := hov
  have hst' : ((update_sensors s (fun _ => some true)).lights i).status = Status.ON := hst
  have hlux : ((update_sensors s (fun _ => some true)).lights i).lux = 100 := by
    rw [update_sensors_lux]
    simp [read_ldr, hi3, i.isLt]
  rw [if_neg (by rintro (hc | hc); exacts [Bool.noConfusion (hov'.symm.trans hc), hi3 hc])]
  rw [if_neg (by rintro ⟨hc, -⟩; rw [hlux] at hc; exact absurd hc (by norm_num))]
  rw [if_pos ⟨by rw [hlux]; norm_num, hst'⟩]
  simp

/-- C7: after a single valid `submit(lid, on)` at time 0 with no further
control requests, the override is still Active after any events strictly
before the scheduled deadline 30 (the pending expiry cannot wake early and
nothing else clears the flag); the submit left the light `ON`; and once
the expiry fires at time 30, the override is Inactive and the next sampler
pass (here at time 31, with a bright reading) changes the light's
actuation again. -/
theorem override_expiry_exact (lid : Int) (a : String)
    (h1 : 1 ≤ lid) (h2 : lid ≤ 3) (ha : lower a = "on")
    (rest : List (Nat × Event))
    (hns : ∀ p ∈ rest, ∀ l act, p.2 ≠ Event.submit l act)
    (htime : ∀ p ∈ rest, p.1 < 30) :
    ((run_trace (control_light init 0 lid a).1 rest).override
        ⟨(lid - 1).toNat, by omega⟩ = true) ∧
    (((control_light init 0 lid a).1.lights ⟨(lid - 1).toNat, by omega⟩).status =
        Status.ON) ∧
    ((run_trace (control_light init 0 lid a).1
        [(30, Event.timerFire 0), (31, Event.tick (fun _ => some true))]).override
        ⟨(lid - 1).toNat, by omega⟩ = false) ∧
    (((run_trace (control_light init 0 lid a).1
        [(30, Event.timerFire 0), (31, Event.tick (fun _ => some true))]).lights
        ⟨(lid - 1).toNat, by omega⟩).status = Status.OFF) := by
  have hlt : (lid - 1).toNat < 4 := by omega
  have e1 := control_light_valid init 0 lid a h1 (by omega) (Or.inl ha)
  have hts : (control_light init 0 lid a).1.timers =
      ⟨⟨(lid - 1).toNat, hlt⟩, 0 + 30⟩ :: [] := by
    rw [e1]
    simp [init]
  have hov1 : (control_light init 0 lid a).1.override ⟨(lid - 1).toNat, hlt⟩ = true := by
    rw [e1]
    simp
  have hst1 : ((control_light init 0 lid a).1.lights ⟨(lid - 1).toNat, hlt⟩).status =
      Status.ON := by
    rw [e1]
    simp [ha]
  refine ⟨?_, hst1, ?_, ?_⟩
  · have htm : ∀ p ∈ rest, ∀ t ∈ (control_light init 0 lid a).1.timers,
        p.1 < t.fireAt := by
      rw [hts]
      intro p hp t ht
      rw [List.mem_singleton] at ht
      rw [ht]
      show p.1 < 0 + 30
      have := htime p hp
      omega
    obtain ⟨ov_eq, -⟩ :=
      run_trace_no_submit_sleeping rest (control_light init 0 lid a).1 hns htm
    rw [ov_eq]
    exact hov1
  · rw [run_trace_cons, run_trace_cons, run_trace_nil,
        step_timer_head 30 _ _ _ hts (by exact Nat.le_refl 30)]
    rw [step_tick_override]
    simp
  · rw [run_trace_cons, run_trace_cons, run_trace_nil,
        step_timer_head 30 _ _ _ hts (by exact Nat.le_refl 30)]
    refine tick_flips_bright_on _ _ 31 ?_ ?_ ?_
    · simp
    · show ¬((lid - 1).toNat = 3)
      omega
    · exact hst1

/-- C7 witness: `submit(1, "on")` at time 0 with a single harmless tick at
time 5 before the deadline. -/
theorem override_expiry_exact_witness :
    ((run_trace (control_light init 0 1 "on").1
        [(5, Event.tick (fun _ => some true))]).override
        ⟨((1 : Int) - 1).toNat, by omega⟩ = true) ∧
    (((control_light init 0 1 "on").1.lights ⟨((1 : Int) - 1).toNat, by omega⟩).status =
        Status.ON) ∧
    ((run_trace (control_light init 0 1 "on").1
        [(30, Event.timerFire 0), (31, Event.tick (fun _ => some true))]).override
        ⟨((1 : Int) - 1).toNat, by omega⟩ = false) ∧
    (((run_trace (control_light init 0 1 "on").1
        [(30, Event.timerFire 0), (31, Event.tick (fun _ => some true))]).lights
        ⟨((1 : Int) - 1).toNat, by omega⟩).status = Status.OFF) :=
  override_expiry_exact 1 "on" (by decide) (by decide) (by decide)
    [(5, Event.tick (fun _ => some true))]
    (by
      intro p hp l act
      rw [List.mem_singleton] at hp
      rw [hp]
      intro hcon
      exact Event.noConfusion hcon)
    (by
      intro p hp
      rw [List.mem_singleton] at hp
      rw [hp]
      show (5 : Nat) < 30
      omega)

/-- C1 counterexample: `submit(1, on)` at time 0, `submit(1, off)` at time
10.  Two expiry timers are then pending (deadlines 30 and 40); when the
first fires at time 30 it clears the override even though the second
call's deadline 40 = 10 + 30 has not been reached, so the override does
not remain Active until the second deadline and there is no single
pending expiry. -/
theorem stale_timer_guard_cex :
    ((run_trace init [(0, Event.submit 1 "on"), (10, Event.submit 1 "off"),
        (30, Event.timerFire 0)]).override 0 = false) ∧
    ((run_trace init [(0, Event.submit 1 "on"), (10, Event.submit 1 "off")]).timers =
      [⟨0, 30⟩, ⟨0, 40⟩]) ∧
    30 < 10 + 30 :=
  ⟨by decide, by decide, by omega⟩

/-- C1 (amended): `clear_override` has no staleness check: a second valid
submit before the first expiry leaves both timers pending (deadlines 30
and `t2 + 30`), and when the first fires at its own deadline 30 it clears
the override unconditionally, before the second call's deadline. -/
theorem stale_timer_unguarded (lid : Int) (a1 a2 : String) (t2 : Nat)
    (h1 : 1 ≤ lid) (h2 : lid ≤ 4)
    (ha1 : lower a1 = "on" ∨ lower a1 = "off")
    (ha2 : lower a2 = "on" ∨ lower a2 = "off")
    (ht0 : 0 < t2) (ht : t2 < 30) :
    ((run_trace init [(0, Event.submit lid a1), (t2, Event.submit lid a2)]).timers =
      [⟨⟨(lid - 1).toNat, by omega⟩, 30⟩, ⟨⟨(lid - 1).toNat, by omega⟩, t2 + 30⟩]) ∧
    ((run_trace init [(0, Event.submit lid a1), (t2, Event.submit lid a2)]).override
      ⟨(lid - 1).toNat, by omega⟩ = true) ∧
    ((run_trace init [(0, Event.submit lid a1), (t2, Event.submit lid a2),
        (30, Event.timerFire 0)]).override ⟨(lid - 1).toNat, by omega⟩ = false) ∧
    30 < t2 + 30 := by
  have hlt : (lid - 1).toNat < 4 := by omega
  have e1 := control_light_valid init 0 lid a1 h1 h2 ha1
  have e2 := control_light_valid (control_light init 0 lid a1).1 t2 lid a2 h1 h2 ha2
  have hS2timers :
      (control_light (control_light init 0 lid a1).1 t2 lid a2).1.timers =
        ⟨⟨(lid - 1).toNat, hlt⟩, 0 + 30⟩ :: [⟨⟨(lid - 1).toNat, hlt⟩, t2 + 30⟩] := by
    rw [e2, e1]
    simp [init]
  have hS2ov :
      (control_light (control_light init 0 lid a1).1 t2 lid a2).1.override
        ⟨(lid - 1).toNat, hlt⟩ = true := by
    rw [e2]
    simp
  refine ⟨?_, ?_, ?_, by omega⟩
  · show (control_light (control_light init 0 lid a1).1 t2 lid a2).1.timers = _
    rw [hS2timers]
  · show (control_light (control_light init 0 lid a1).1 t2 lid a2).1.override _ = true
    exact hS2ov
  · show (step_event 30 (control_light (control_light init 0 lid a1).1 t2 lid a2).1
        (Event.timerFire 0)).1.override ⟨(lid - 1).toNat, by omega⟩ = false
    rw [step_timer_head 30 _ _ _ hS2timers (by exact Nat.le_refl 30)]
    simp

/-- C1 amended witness: `submit(1, "on")` then `submit(1, "off")` at time
10. -/
theorem stale_timer_unguarded_witness :
    ((run_trace init [(0, Event.submit 1 "on"), (10, Event.submit 1 "off")]).timers =
      [⟨⟨((1 : Int) - 1).toNat, by omega⟩, 30⟩,
       ⟨⟨((1 : Int) - 1).toNat, by omega⟩, 10 + 30⟩]) ∧
    ((run_trace init [(0, Event.submit 1 "on"), (10, Event.submit 1 "off")]).override
      ⟨((1 : Int) - 1).toNat, by omega⟩ = true) ∧
    ((run_trace init [(0, Event.submit 1 "on"), (10, Event.submit 1 "off"),
        (30, Event.timerFire 0)]).override ⟨((1 : Int) - 1).toNat, by omega⟩ = false) ∧
    30 < 10 + 30 :=
  stale_timer_unguarded 1 "on" "off" 10 (by decide) (by decide)
    (Or.inl (by decide)) (Or.inr (by decide)) (by omega) (by omega)
